import Mathlib

/-!
Verification development for the rdb-tunnel repository.

This file gives a shallow embedding, in Lean 4, of the parts of the Rust
source that the specification's claims are about:

  * the two firewalls (`src/firewall.rs` and `src/vpn/firewall.rs`),
  * the batch writer tick (`src/db_write.rs`, `start_packet_writer` and
    `process_packets`),
  * the recursive header parser (`src/db_write.rs`, `inner_parse`, with
    `parse_ip_header` from `cache/packet_header.rs`, the only variant in the
    repository matching the `Option`-returning signature used there),
  * the polling reader (`src/db_read.rs`, `PacketPoller::poll_packets`),
  * the IPv4 reassembler (`src/host_ids/ip_reassembly.rs` and the identical
    walk in `src/host_idps/ip_reassembly.rs`),
  * the TCP stream tracker (`src/host_ids/tcp_stream.rs` and
    `src/host_ids/packet_processor.rs`).

Machine integers are modelled as `Nat` with explicit `% 2^w` where the source
relies on wrapping; byte slices are `List Nat` (each element a byte value).
A Rust indexing or slicing operation that can panic is modelled by an
`Option` result whose `none` marks the panic.  Calls to `Instant::now`,
`SystemTime::now` or `Utc::now` are modelled by explicit time parameters;
the capture timestamp field, which is only ever set to the current wall
clock, is omitted from the packet records.
-/

namespace RdbTunnel

/-- An IP address: four octets for v4, eight 16-bit segments for v6
(mirrors `std::net::IpAddr`). -/
inductive IpAddr where
  | v4 (a b c d : Nat)
  | v6 (s0 s1 s2 s3 s4 s5 s6 s7 : Nat)
deriving DecidableEq, Repr

/-- Firewall policy (`Policy` in both firewall sources). -/
inductive Policy where
  | whitelist
  | blacklist
deriving DecidableEq, Repr

/-! ## The ingress firewall, `src/firewall.rs`

`IpFirewall` there keeps `rules: HashMap<Filter, u8>`; `check` iterates over
the map entries in an unspecified order.  We model the rule set as a list of
`(Filter, priority)` pairs and quantify over all lists, which covers every
iteration order of the map. -/

namespace SrcFw

/-- `Filter` of `src/firewall.rs`. -/
inductive Filter where
  | ipAddress (a : IpAddr)
  | port (p : Nat)
  | protocol (p : Nat)
deriving DecidableEq, Repr

/-- `FirewallPacket` of `src/firewall_packet.rs`. -/
structure FirewallPacket where
  src_ip : IpAddr
  dst_ip : IpAddr
  src_port : Nat
  dst_port : Nat
  ip_version : Nat
deriving DecidableEq, Repr

/-- The per-filter match condition tested inside the loop body of
`IpFirewall::check` in `src/firewall.rs` (each arm tests this condition
before updating `max_priority` and the `allow`/`block` flag). -/
def filterMatches (f : Filter) (pkt : FirewallPacket) : Bool :=
  match f with
  | .ipAddress ip => pkt.src_ip = ip || pkt.dst_ip = ip
  | .port p => pkt.src_port = p || pkt.dst_port = p
  | .protocol p => pkt.ip_version = p

/-- The loop of `IpFirewall::check` in `src/firewall.rs`: state
`(block, allow, max_priority)` threaded over the rule entries; a rule fires
only when `priority > max_priority` and its filter matches, and then sets
`allow` (whitelist) or `block` (blacklist) and raises `max_priority`. -/
def checkGo (policy : Policy) (pkt : FirewallPacket) :
    List (Filter × Nat) → Bool → Bool → Nat → Bool
  | [], block, allow, _ =>
      match policy with
      | .whitelist => allow
      | .blacklist => !block
  | (f, priority) :: rest, block, allow, maxPriority =>
      if priority > maxPriority && filterMatches f pkt then
        match policy with
        | .whitelist => checkGo policy pkt rest block true priority
        | .blacklist => checkGo policy pkt rest true allow priority
      else
        checkGo policy pkt rest block allow maxPriority

/-- `IpFirewall::check` of `src/firewall.rs`: `block = allow = false`,
`max_priority = 0` initially. -/
def check (policy : Policy) (rules : List (Filter × Nat)) (pkt : FirewallPacket) : Bool :=
  checkGo policy pkt rules false false 0

/-- Once the accumulated flag is set it stays set and forces the whitelist
answer `true`. -/
lemma checkGo_whitelist_true (pkt : FirewallPacket) (rules : List (Filter × Nat))
    (block : Bool) (m : Nat) :
    checkGo .whitelist pkt rules block true m = true := by
  induction rules generalizing block m with
  | nil => rfl
  | cons r rest ih =>
      obtain ⟨f, p⟩ := r
      simp only [checkGo]
      by_cases h : (p > m && filterMatches f pkt) = true
      · simp [h, ih]
      · simp [h, ih]

/-- Symmetric fact for the blacklist flag. -/
lemma checkGo_blacklist_false (pkt : FirewallPacket) (rules : List (Filter × Nat))
    (allow : Bool) (m : Nat) :
    checkGo .blacklist pkt rules true allow m = false := by
  induction rules generalizing allow m with
  | nil => rfl
  | cons r rest ih =>
      obtain ⟨f, p⟩ := r
      simp only [checkGo]
      by_cases h : (p > m && filterMatches f pkt) = true
      · simp [h, ih]
      · simp [h, ih]

/-- Starting from the initial loop state, the whitelist decision is exactly:
some rule with positive priority matches.  The `max_priority` threshold makes
the result independent of the iteration order of the `HashMap`. -/
lemma checkGo_whitelist_char (pkt : FirewallPacket) (rules : List (Filter × Nat)) :
    checkGo .whitelist pkt rules false false 0 =
      rules.any (fun r => filterMatches r.1 pkt && 0 < r.2) := by
  induction rules with
  | nil => rfl
  | cons r rest ih =>
      obtain ⟨f, p⟩ := r
      simp only [checkGo, List.any_cons]
      by_cases hm : filterMatches f pkt = true
      · by_cases hp : 0 < p
        · have hcond : (p > 0 && filterMatches f pkt) = true := by simp [hm, hp]
          simp only [hcond, if_true]
          rw [checkGo_whitelist_true]
          simp [hm, hp]
        · have hcond : (p > 0 && filterMatches f pkt) = false := by simp [hp]
          simp [hcond, ih, hm, hp]
      · have hcond : (p > 0 && filterMatches f pkt) = false := by simp [hm]
        simp [hcond, ih, hm]

/-- Blacklist counterpart of `checkGo_whitelist_char`. -/
lemma checkGo_blacklist_char (pkt : FirewallPacket) (rules : List (Filter × Nat)) :
    checkGo .blacklist pkt rules false false 0 =
      !rules.any (fun r => filterMatches r.1 pkt && 0 < r.2) := by
  induction rules with
  | nil => rfl
  | cons r rest ih =>
      obtain ⟨f, p⟩ := r
      simp only [checkGo, List.any_cons]
      by_cases hm : filterMatches f pkt = true
      · by_cases hp : 0 < p
        · have hcond : (p > 0 && filterMatches f pkt) = true := by simp [hm, hp]
          simp only [hcond, if_true]
          rw [checkGo_blacklist_false]
          simp [hm, hp]
        · have hcond : (p > 0 && filterMatches f pkt) = false := by simp [hp]
          simp [hcond, ih, hm, hp]
      · have hcond : (p > 0 && filterMatches f pkt) = false := by simp [hm]
        simp [hcond, ih, hm]

/-- The decision of `src/firewall.rs`: pass iff (whitelist and a positive
priority rule matches) or (blacklist and no positive-priority rule matches). -/
theorem check_char (policy : Policy) (rules : List (Filter × Nat)) (pkt : FirewallPacket) :
    check policy rules pkt =
      (match policy with
       | .whitelist => rules.any (fun r => filterMatches r.1 pkt && 0 < r.2)
       | .blacklist => !rules.any (fun r => filterMatches r.1 pkt && 0 < r.2)) := by
  cases policy with
  | whitelist => exact checkGo_whitelist_char pkt rules
  | blacklist => exact checkGo_blacklist_char pkt rules

end SrcFw

/-! ## The VPN firewall, `src/vpn/firewall.rs`

Rules are a `Vec<Rule>` kept sorted by descending priority; `check` tests
whether any rule's filter matches and applies the policy. -/

namespace VpnFw

/-- `IpHeader` of `src/vpn/packet_header.rs` (IPv4 addresses as four octets). -/
structure IpHeader where
  version : Nat
  protocol : Nat
  src_ip : Nat × Nat × Nat × Nat
  dst_ip : Nat × Nat × Nat × Nat
deriving DecidableEq, Repr

/-- `Filter` of `src/vpn/firewall.rs`, with the compound variants. -/
inductive Filter where
  | ipAddress (a : IpAddr)
  | port (p : Nat)
  | ipVersion (v : Nat)
  | nextHeaderProtocol (p : Nat)
  | and (f g : Filter)
  | or (f g : Filter)
  | not (f : Filter)
deriving DecidableEq, Repr

/-- Rust compares an `IpAddr` with the header's `Ipv4Addr`: equal exactly when
it is a v4 address with the same octets. -/
def ipAddrEqV4 (a : IpAddr) (q : Nat × Nat × Nat × Nat) : Bool :=
  match a with
  | .v4 x y z w => q = (x, y, z, w)
  | .v6 _ _ _ _ _ _ _ _ => false

/-- `IpFirewall::matches` of `src/vpn/firewall.rs` (named ruleMatches here since the source name is a Lean keyword). -/
def ruleMatches (f : Filter) (hdr : IpHeader) (srcPort dstPort : Nat) : Bool :=
  match f with
  | .ipAddress a => ipAddrEqV4 a hdr.src_ip || ipAddrEqV4 a hdr.dst_ip
  | .port p => p = srcPort || p = dstPort
  | .ipVersion v => v = hdr.version
  | .nextHeaderProtocol p => p = hdr.protocol
  | .and f g => ruleMatches f hdr srcPort dstPort && ruleMatches g hdr srcPort dstPort
  | .or f g => ruleMatches f hdr srcPort dstPort || ruleMatches g hdr srcPort dstPort
  | .not f => !ruleMatches f hdr srcPort dstPort

/-- `IpFirewall::check` of `src/vpn/firewall.rs`: a rule is a filter with a
`u32` priority; the decision only uses whether any filter matches. -/
def check (policy : Policy) (rules : List (Filter × Nat)) (hdr : IpHeader)
    (srcPort dstPort : Nat) : Bool :=
  let ruleMatch := rules.any (fun rule => ruleMatches rule.1 hdr srcPort dstPort)
  match ruleMatch, policy with
  | true, .whitelist => true
  | false, .whitelist => false
  | true, .blacklist => false
  | false, .blacklist => true

end VpnFw

/-! ## Claims C1 and C10: firewall decisions and priorities -/

/-- A packet on TCP port 22 both ways, used for the concrete firewall
counterexample. -/
def pktPort22 : SrcFw.FirewallPacket :=
  { src_ip := .v4 10 0 0 1
    dst_ip := .v4 10 0 0 2
    src_port := 40000
    dst_port := 22
    ip_version := 4 }

/-- C1 counterexample.  In the ingress firewall `src/firewall.rs`, a
blacklist with the single rule `Port(22)` at priority 0 passes a packet whose
destination port is 22, even though the rule's filter matches the packet;
the claim predicts `check = false` for a blacklist with a matching rule, so
priorities do change the decision. -/
theorem C1_counterexample :
    SrcFw.check .blacklist [(SrcFw.Filter.port 22, 0)] pktPort22 = true ∧
    SrcFw.filterMatches (SrcFw.Filter.port 22) pktPort22 = true := by
  constructor <;> rfl

/-- C1 amended.  The VPN firewall (`src/vpn/firewall.rs`) satisfies the claim
as stated: pass iff (whitelist and some rule's filter matches) or (blacklist
and no rule's filter matches), priorities playing no role.  In the ingress
firewall (`src/firewall.rs`) the same holds with "rule" replaced by "rule
with positive priority": rules at priority 0 never fire because a rule fires
only when its priority strictly exceeds a running maximum that starts at 0. -/
theorem C1_firewall_decision_amended :
    (∀ (policy : Policy) (rules : List (VpnFw.Filter × Nat)) (hdr : VpnFw.IpHeader)
       (sp dp : Nat),
       VpnFw.check policy rules hdr sp dp = true ↔
         ((policy = .whitelist ∧ ∃ r ∈ rules, VpnFw.ruleMatches r.1 hdr sp dp = true) ∨
          (policy = .blacklist ∧ ¬ ∃ r ∈ rules, VpnFw.ruleMatches r.1 hdr sp dp = true))) ∧
    (∀ (policy : Policy) (rules : List (SrcFw.Filter × Nat)) (pkt : SrcFw.FirewallPacket),
       SrcFw.check policy rules pkt = true ↔
         ((policy = .whitelist ∧ ∃ r ∈ rules, SrcFw.filterMatches r.1 pkt = true ∧ 0 < r.2) ∨
          (policy = .blacklist ∧ ¬ ∃ r ∈ rules, SrcFw.filterMatches r.1 pkt = true ∧ 0 < r.2))) := by
  constructor
  · intro policy rules hdr sp dp
    cases hAny : rules.any (fun rule => VpnFw.ruleMatches rule.1 hdr sp dp) with
    | true =>
        have hex : ∃ r ∈ rules, VpnFw.ruleMatches r.1 hdr sp dp = true := by
          simpa [List.any_eq_true] using hAny
        cases policy <;> simp [VpnFw.check, hAny, hex]
    | false =>
        have hnex : ¬ ∃ r ∈ rules, VpnFw.ruleMatches r.1 hdr sp dp = true := by
          simp only [List.any_eq_false] at hAny
          rintro ⟨r, hr, hm⟩
          exact absurd hm (by simpa using hAny r hr)

        cases policy <;> simp [VpnFw.check, hAny, hnex]
  · intro policy rules pkt
    rw [SrcFw.check_char]
    have hiff : rules.any (fun r => SrcFw.filterMatches r.1 pkt && 0 < r.2) = true ↔
        ∃ r ∈ rules, SrcFw.filterMatches r.1 pkt = true ∧ 0 < r.2 := by
      simp [List.any_eq_true]
    cases hAny : rules.any (fun r => SrcFw.filterMatches r.1 pkt && 0 < r.2) with
    | true =>
        have hex := hiff.mp hAny
        cases policy <;> simp [hex]
    | false =>
        have hnex : ¬ ∃ r ∈ rules, SrcFw.filterMatches r.1 pkt = true ∧ 0 < r.2 := by
          intro h
          exact absurd (hiff.mpr h) (by simp [hAny])

        cases policy <;> simp [hnex]

/-- C10.  In the ingress firewall wired into the write path
(`src/firewall.rs`, used by `src/db_write.rs`), removing every rule of
priority 0 leaves the decision unchanged for every policy, rule set and
packet: a priority-0 rule never influences `check`. -/
theorem C10_priority_zero_inert (policy : Policy) (rules : List (SrcFw.Filter × Nat))
    (pkt : SrcFw.FirewallPacket) :
    SrcFw.check policy rules pkt =
      SrcFw.check policy (rules.filter (fun r => 0 < r.2)) pkt := by
  rw [SrcFw.check_char, SrcFw.check_char]
  have hany : (rules.filter (fun r => 0 < r.2)).any
        (fun r => SrcFw.filterMatches r.1 pkt && 0 < r.2) =
      rules.any (fun r => SrcFw.filterMatches r.1 pkt && 0 < r.2) := by
    induction rules with
    | nil => rfl
    | cons r rest ih =>
        by_cases hp : 0 < r.2
        · simp [List.filter_cons, hp, List.any_cons, ih]
        · simp [List.filter_cons, hp, List.any_cons, ih]

  cases policy <;> simp [hany]

/-- C10 witness: with the concrete blacklist of `src/db_write.rs` extended by
a priority-0 rule, the decision equals that of the filtered rule set. -/
theorem C10_priority_zero_inert_witness :
    SrcFw.check .blacklist
        [(SrcFw.Filter.port 13432, 90), (SrcFw.Filter.port 22, 0)] pktPort22 =
      SrcFw.check .blacklist
        ([(SrcFw.Filter.port 13432, 90), (SrcFw.Filter.port 22, 0)].filter
          (fun r => 0 < r.2)) pktPort22 :=
  C10_priority_zero_inert .blacklist _ pktPort22

/-! ## The header parser, `src/db_write.rs` (`inner_parse`)

Byte sequences are `List Nat`.  Rust's `u16::from_be_bytes [a, b]` is
`256 * a + b`, `byte >> 4` is `byte / 16` and `byte & 0x0F` is `byte % 16`
for byte values.  A Rust slice or index operation that can read past the end
panics; the embedding returns `none` exactly there.  `inner_parse` calls
`parse_ip_header` from `crate::packet_header`; the only source file in the
repository with that `Option`-returning, `IpAddr`-producing signature is
`cache/packet_header.rs`, embedded below. -/

/-- `PacketData` of `src/db_write.rs` (the `timestamp: Utc::now()` field is
omitted: it is wall-clock only and no claim mentions it). -/
structure PacketData where
  src_mac : List Nat
  dst_mac : List Nat
  ether_type : Nat
  src_ip : IpAddr
  dst_ip : IpAddr
  src_port : Nat
  dst_port : Nat
  ip_protocol : Nat
  data : List Nat
  raw_packet : List Nat
deriving DecidableEq, Repr

/-- `IpHeader` of `cache/packet_header.rs`. -/
structure PHIpHeader where
  version : Nat
  protocol : Nat
  src_ip : IpAddr
  dst_ip : IpAddr
deriving DecidableEq, Repr

/-- `parse_ipv4_header` of `cache/packet_header.rs`.  It reads `data[9]` and
`data[12..=19]` with no length check, so it panics (modelled as `none`)
exactly when fewer than 20 bytes are available. -/
def parse_ipv4_header (data : List Nat) : Option PHIpHeader :=
  if data.length < 20 then none
  else some
    { version := 4
      protocol := data.getD 9 0
      src_ip := .v4 (data.getD 12 0) (data.getD 13 0) (data.getD 14 0) (data.getD 15 0)
      dst_ip := .v4 (data.getD 16 0) (data.getD 17 0) (data.getD 18 0) (data.getD 19 0) }

/-- One big-endian 16-bit group starting at byte index `i`. -/
def be16 (data : List Nat) (i : Nat) : Nat :=
  256 * data.getD i 0 + data.getD (i + 1) 0

/-- `parse_ipv6_header` of `cache/packet_header.rs`: reads `data[6]` and the
sixteen 16-bit groups in `data[8..40]` unguarded, hence panics exactly when
fewer than 40 bytes are available. -/
def parse_ipv6_header (data : List Nat) : Option PHIpHeader :=
  if data.length < 40 then none
  else some
    { version := 6
      protocol := data.getD 6 0
      src_ip := .v6 (be16 data 8) (be16 data 10) (be16 data 12) (be16 data 14)
          (be16 data 16) (be16 data 18) (be16 data 20) (be16 data 22)
      dst_ip := .v6 (be16 data 24) (be16 data 26) (be16 data 28) (be16 data 30)
          (be16 data 32) (be16 data 34) (be16 data 36) (be16 data 38) }

/-- `parse_ip_header` of `cache/packet_header.rs`.  The outer `Option` marks
a panic (`data[0]` on an empty slice, or an unguarded read in the v4/v6
helpers); the inner `Option` is the source's return value. -/
def parse_ip_header (data : List Nat) : Option (Option PHIpHeader) :=
  match data.get? 0 with
  | none => none
  | some b0 =>
      let version := b0 / 16
      if version = 4 then (parse_ipv4_header data).map some
      else if version = 6 then (parse_ipv6_header data).map some
      else some none

/-- `create_empty_packet_data` of `src/db_write.rs`. -/
def create_empty_packet_data (raw : List Nat) : PacketData :=
  { src_mac := [0, 0, 0, 0, 0, 0]
    dst_mac := [0, 0, 0, 0, 0, 0]
    ether_type := 0
    src_ip := .v4 0 0 0 0
    dst_ip := .v4 0 0 0 0
    src_port := 0
    dst_port := 0
    ip_protocol := 0
    data := []
    raw_packet := raw }

/-- The final `Ok(PacketData { .. })` of `inner_parse`: `data` is the slice
`ethernet_packet[payload_offset..]`, which panics when the offset exceeds the
frame length. -/
def mkPacketData (raw : List Nat) (etherType : Nat) (srcIp dstIp : IpAddr)
    (srcPort dstPort ipProtocol payloadOffset : Nat) : Option PacketData :=
  if payloadOffset ≤ raw.length then
    some
      { src_mac := (raw.drop 6).take 6
        dst_mac := raw.take 6
        ether_type := etherType
        src_ip := srcIp
        dst_ip := dstIp
        src_port := srcPort
        dst_port := dstPort
        ip_protocol := ipProtocol
        data := raw.drop payloadOffset
        raw_packet := raw }
  else none

/-- `inner_parse` of `src/db_write.rs` (inside `parse_and_analyze_packet`).
The function is not recursive in the source: its `match` on the ether type
has arms only for 0x0800, 0x86DD and 0x0806, everything else returning the
empty packet, and the `depth` parameter is only tested at entry. -/
def inner_parse (raw : List Nat) (depth : Nat) : Option PacketData :=
  if depth > 5 ∨ raw.length < 14 then some (create_empty_packet_data raw)
  else
    let ether_type := be16 raw 12
    if ether_type = 0x0800 then
      if raw.length > 23 then
        match parse_ip_header (raw.drop 14) with
        | none => none
        | some none => mkPacketData raw ether_type (.v4 0 0 0 0) (.v4 0 0 0 0) 0 0 0 14
        | some (some hdr) =>
            let ihl := (raw.getD 14 0 % 16) * 4
            let payload_offset := 14 + ihl
            let protocol := raw.getD 23 0
            if protocol = 6 ∨ protocol = 17 then
              if payload_offset + 4 ≤ raw.length then
                let src_port := be16 raw payload_offset
                let dst_port := be16 raw (payload_offset + 2)
                let payload_offset2 :=
                  if protocol = 6 ∧ payload_offset + 12 < raw.length then
                    payload_offset + (raw.getD (payload_offset + 12) 0 / 16) * 4
                  else payload_offset + 8
                mkPacketData raw ether_type hdr.src_ip hdr.dst_ip src_port dst_port
                  protocol payload_offset2
              else mkPacketData raw ether_type hdr.src_ip hdr.dst_ip 0 0 protocol payload_offset
            else mkPacketData raw ether_type hdr.src_ip hdr.dst_ip 0 0 protocol payload_offset
      else mkPacketData raw ether_type (.v4 0 0 0 0) (.v4 0 0 0 0) 0 0 0 14
    else if ether_type = 0x86DD then
      if raw.length > 54 then
        match parse_ip_header (raw.drop 14) with
        | none => none
        | some none => mkPacketData raw ether_type (.v4 0 0 0 0) (.v4 0 0 0 0) 0 0 0 14
        | some (some hdr) =>
            let next_header := raw.getD 20 0
            if next_header = 6 ∨ next_header = 17 then
              if 58 ≤ raw.length then
                mkPacketData raw ether_type hdr.src_ip hdr.dst_ip (be16 raw 54) (be16 raw 56)
                  next_header 54
              else mkPacketData raw ether_type hdr.src_ip hdr.dst_ip 0 0 next_header 54
            else mkPacketData raw ether_type hdr.src_ip hdr.dst_ip 0 0 next_header 54
      else mkPacketData raw ether_type (.v4 0 0 0 0) (.v4 0 0 0 0) 0 0 0 14
    else if ether_type = 0x0806 then
      if 28 ≤ raw.length then
        if raw.length < 42 then none
        else mkPacketData raw ether_type
          (.v4 (raw.getD 28 0) (raw.getD 29 0) (raw.getD 30 0) (raw.getD 31 0))
          (.v4 (raw.getD 38 0) (raw.getD 39 0) (raw.getD 40 0) (raw.getD 41 0)) 0 0 0 14
      else mkPacketData raw ether_type (.v4 0 0 0 0) (.v4 0 0 0 0) 0 0 0 14
    else some (create_empty_packet_data raw)

/-! ## Claim C3: totality of the header parser -/

/-- A 28-byte ARP frame: zero MAC addresses, ether type 0x0806, then a
14-byte remainder, exactly long enough to pass the source's `len >= 28`
guard while the slices `raw[28..32]` and `raw[38..42]` read past the end. -/
def arpFrame28 : List Nat :=
  List.replicate 12 0 ++ [0x08, 0x06] ++ List.replicate 14 0

/-- C3.  The parser is not total: on the 28-byte ARP frame the source takes
the `len >= 28` branch and evaluates `&raw[28..32]` and `&raw[38..42]`,
slices that reach past the end of the frame — a Rust panic, modelled as
`none`.  A frame of length 42 is required for those reads. -/
theorem C3_parser_panics_on_short_arp :
    inner_parse arpFrame28 0 = none ∧
    arpFrame28.length = 28 ∧
    be16 arpFrame28 12 = 0x0806 := by
  refine ⟨?_, ?_, ?_⟩ <;> rfl

/-! ## Claim C6: VLAN recursion -/

/-- A 38-byte frame with ether type 0x8100 (VLAN), a zero tag, and an inner
IPv4/ICMP packet with source 1.2.3.4 and destination 5.6.7.8. -/
def vlanFrame : List Nat :=
  List.replicate 12 0 ++ [0x81, 0x00] ++ [0, 0] ++ [0x08, 0x00] ++
    [0x45, 0, 0, 40, 0, 0, 0, 0, 64, 1, 0, 0, 1, 2, 3, 4, 5, 6, 7, 8]

/-- C6 counterexample.  On a VLAN frame longer than 18 bytes the parser does
not recurse: the ether-type match of `inner_parse` has no 0x8100 arm, so the
frame falls into the default arm and comes back as the empty packet, while
the recursion the claim describes would have decoded the inner IPv4 source
address 1.2.3.4. -/
theorem C6_counterexample :
    inner_parse vlanFrame 0 = some (create_empty_packet_data vlanFrame) ∧
    (inner_parse (vlanFrame.drop 4) 1).map PacketData.src_ip =
      some (IpAddr.v4 1 2 3 4) ∧
    be16 vlanFrame 12 = 0x8100 ∧
    18 < vlanFrame.length := by
  refine ⟨?_, ?_, ?_, ?_⟩ <;> first | rfl | decide

/-- C6 amended.  Every frame whose ether type field is 0x8100 is returned as
the empty `PacketData` (raw bytes preserved), at every nesting depth: the
parser has no VLAN arm and never recurses. -/
theorem C6_vlan_returns_empty_amended (raw : List Nat) (depth : Nat)
    (hty : be16 raw 12 = 0x8100) :
    inner_parse raw depth = some (create_empty_packet_data raw) := by
  unfold inner_parse
  by_cases hd : depth > 5 ∨ raw.length < 14
  · simp [hd]
  · simp only [hd, if_false]
    rw [hty]
    norm_num

/-- C6 amended, witness at the concrete VLAN frame. -/
theorem C6_vlan_returns_empty_amended_witness :
    inner_parse vlanFrame 0 = some (create_empty_packet_data vlanFrame) :=
  C6_vlan_returns_empty_amended vlanFrame 0 (by decide)

/-! ## The batch writer, `src/db_write.rs`

`start_packet_writer` drains `PACKET_BUFFER` each tick and calls
`process_packets`; the database is modelled as an oracle: `execOk i` says
whether `transaction.execute` on the i-th chunk succeeds, `commitOk` whether
`transaction.commit` succeeds. -/

/-- Fuel-driven body of `chunksOf`; each step removes at least one element
when `0 < n`, so fuel `l.length` always suffices. -/
def chunksOfGo (n : Nat) : Nat → List PacketData → List (List PacketData)
  | _, [] => []
  | 0, _ => []
  | fuel + 1, l => l.take n :: chunksOfGo n fuel (l.drop n)

/-- `packets.chunks(n)` for `0 < n`: successive sub-slices of length `n`,
the last one possibly shorter; no chunks for an empty list. -/
def chunksOf (n : Nat) (l : List PacketData) : List (List PacketData) :=
  chunksOfGo n l.length l

/-- The chunk loop of `process_packets`: one `transaction.execute` per chunk,
accumulating the processed count, aborting with `?` on the first failure. -/
def execChunks (execOk : Nat → Bool) :
    List (List PacketData) → Nat → Nat → Except Unit Nat
  | [], _, processed => .ok processed
  | c :: rest, i, processed =>
      if execOk i then execChunks execOk rest (i + 1) (processed + c.length)
      else .error ()

/-- `process_packets` of `src/db_write.rs`: chunk size 1000, one multi-row
INSERT per chunk inside a single transaction, then commit. -/
def process_packets (packets : List PacketData) (execOk : Nat → Bool)
    (commitOk : Bool) : Except Unit Nat :=
  match execChunks execOk (chunksOf 1000 packets) 0 0 with
  | .error e => .error e
  | .ok processed => if commitOk then .ok processed else .error ()

/-- One tick of the loop in `start_packet_writer`: if the buffer is empty the
tick does nothing (`continue`); otherwise the buffer is drained and
`process_packets` runs on the drained batch.  On `Err` the source only logs
the failure — the drained batch is not pushed back. -/
def writer_tick (buffer : List PacketData) (execOk : Nat → Bool) (commitOk : Bool) :
    List PacketData × Option (Except Unit Nat) :=
  if buffer.isEmpty then (buffer, none)
  else ([], some (process_packets buffer execOk commitOk))

/-! ## Claim C2: retry of a failed batch -/

/-- C2 counterexample.  A one-frame batch whose commit fails: after the tick
the staging buffer is empty, so the drained frame is not back in the buffer
before the next tick — it is lost. -/
theorem C2_counterexample :
    (writer_tick [create_empty_packet_data [0]] (fun _ => true) false).1 = [] ∧
    (writer_tick [create_empty_packet_data [0]] (fun _ => true) false).2 =
      some (.error ()) ∧
    create_empty_packet_data [0] ∉
      (writer_tick [create_empty_packet_data [0]] (fun _ => true) false).1 := by
  refine ⟨rfl, rfl, ?_⟩
  simp [writer_tick]

/-- C2 amended.  When a tick drains a non-empty batch, the staging buffer is
left empty whatever the transaction outcome: on failure the drained batch is
not re-inserted, it is dropped and the error is only logged. -/
theorem C2_failed_batch_dropped_amended (buffer : List PacketData)
    (execOk : Nat → Bool) (commitOk : Bool) (hne : buffer ≠ []) :
    (writer_tick buffer execOk commitOk).1 = [] ∧
    (writer_tick buffer execOk commitOk).2 =
      some (process_packets buffer execOk commitOk) := by
  unfold writer_tick
  simp [List.isEmpty_iff, hne]

/-- C2 amended, witness: the failing one-frame batch. -/
theorem C2_failed_batch_dropped_amended_witness :
    (writer_tick [create_empty_packet_data [0]] (fun _ => true) false).1 = [] ∧
    (writer_tick [create_empty_packet_data [0]] (fun _ => true) false).2 =
      some (process_packets [create_empty_packet_data [0]] (fun _ => true) false) :=
  C2_failed_batch_dropped_amended [create_empty_packet_data [0]] (fun _ => true) false
    (by simp)

/-! ## The polling reader, `src/db_read.rs`

`PacketPoller::poll_packets` holds `last_timestamp : Option<DateTime>` and
`is_first_poll : bool`.  Timestamps live on an integer timeline; the database
response is an oracle `Except Unit (List PacketInfo)` (the rows the `SELECT`
returns, or a query error).  `chrono::Utc::now()` is the parameter `now`. -/

/-- `PacketInfo` of `src/db_read.rs` (the `i32` columns as `Int`, the
timestamp as a point on an integer timeline). -/
structure PacketInfo where
  src_mac : List Nat
  dst_mac : List Nat
  ether_type : Int
  src_ip : IpAddr
  dst_ip : IpAddr
  src_port : Option Int
  dst_port : Option Int
  ip_protocol : Int
  timestamp : Int
  data : List Nat
  raw_packet : List Nat
deriving DecidableEq, Repr

/-- `PacketPoller::is_broadcast_ip`: for v4, `is_broadcast() ||
is_multicast() || octets == [255,255,255,255]`; for v6, `is_multicast()`
(top eight bits of the first segment all set). -/
def is_broadcast_ip (ip : IpAddr) : Bool :=
  match ip with
  | .v4 a b c d =>
      decide ((a = 255 ∧ b = 255 ∧ c = 255 ∧ d = 255) ∨
        (224 ≤ a ∧ a ≤ 239) ∨ [a, b, c, d] = [255, 255, 255, 255])
  | .v6 s0 _ _ _ _ _ _ _ => decide (s0 &&& 0xFF00 = 0xFF00)

/-- `PacketPoller::should_process_packet`. -/
def should_process_packet (myIp : IpAddr) (packet : PacketInfo) : Bool :=
  packet.dst_ip == myIp || is_broadcast_ip packet.dst_ip

/-- The mutable poller state (`last_timestamp`, `is_first_poll`) together
with the fixed `my_ip`. -/
structure PollState where
  last_timestamp : Option Int
  is_first_poll : Bool
  my_ip : IpAddr
deriving DecidableEq, Repr

/-- The `latest_timestamp` fold of `poll_packets`: over every returned row,
in order, keep the largest timestamp seen (`None` for no rows). -/
def latest_of (rows : List PacketInfo) : Option Int :=
  rows.foldl
    (fun latest row =>
      match latest with
      | none => some row.timestamp
      | some t => if t < row.timestamp then some row.timestamp else latest)
    none

/-- `PacketPoller::poll_packets` of `src/db_read.rs` as a state transformer.
On a query error: `last_timestamp := now`, `is_first_poll` unchanged (the
`store(false)` is only reached on success).  On success: `last_timestamp`
becomes the largest row timestamp, or `now` when no rows came back;
`is_first_poll` becomes false; the returned rows are those passing
`should_process_packet`.  The `None` arm of the non-first branch writes
`now - 5` before querying; every exit overwrites it, but it is kept for
fidelity. -/
def poll_packets (s : PollState) (now : Int)
    (dbres : Except Unit (List PacketInfo)) :
    PollState × Except Unit (List PacketInfo) :=
  let s1 := if s.is_first_poll = false ∧ s.last_timestamp = none
            then { s with last_timestamp := some (now - 5) } else s
  match dbres with
  | .error _ => ({ s1 with last_timestamp := some now }, .error ())
  | .ok rows =>
      let new_timestamp := (latest_of rows).getD now
      ({ last_timestamp := some new_timestamp, is_first_poll := false,
         my_ip := s1.my_ip },
       .ok (rows.filter (should_process_packet s1.my_ip)))

/-! ## Claim C4: watermark monotonicity -/

/-- A row addressed to host 10.0.0.1 bearing timestamp 80. -/
def rowTs80 : PacketInfo :=
  { src_mac := [0, 0, 0, 0, 0, 0]
    dst_mac := [0, 0, 0, 0, 0, 0]
    ether_type := 0x0800
    src_ip := .v4 10 0 0 9
    dst_ip := .v4 10 0 0 1
    src_port := none
    dst_port := none
    ip_protocol := 17
    timestamp := 80
    data := []
    raw_packet := [] }

/-- C4 counterexample.  A database error on the first poll leaves
`is_first_poll = true` while setting the watermark to the current time (100).
The next poll, still on the first-poll 30-second-window query, succeeds and
returns a row stamped 80 — inside the window, not future-dated — and the
watermark moves backwards from 100 to 80. -/
theorem C4_counterexample :
    (poll_packets ⟨none, true, .v4 10 0 0 1⟩ 100 (.error ())).1 =
      ⟨some 100, true, .v4 10 0 0 1⟩ ∧
    (poll_packets ⟨some 100, true, .v4 10 0 0 1⟩ 101 (.ok [rowTs80])).1 =
      ⟨some 80, false, .v4 10 0 0 1⟩ ∧
    (80 : Int) < 100 ∧ (101 : Int) - 30 ≤ 80 ∧ (80 : Int) ≤ 101 := by
  refine ⟨rfl, ?_, by decide, by decide, by decide⟩
  rfl

/-- If every row timestamp is above `w` and the accumulator is either empty
or above `w`, the `latest_timestamp` fold ends above `w`. -/
lemma latest_of_go_gt (w : Int) (rows : List PacketInfo) (acc : Option Int)
    (hacc : ∀ a, acc = some a → w < a)
    (hrows : ∀ r ∈ rows, w < r.timestamp) :
    ∀ t, rows.foldl
      (fun latest row =>
        match latest with
        | none => some row.timestamp
        | some t => if t < row.timestamp then some row.timestamp else latest)
      acc = some t → w < t := by
  induction rows generalizing acc with
  | nil =>
      intro t ht
      exact hacc t ht
  | cons r rest ih =>
      intro t ht
      simp only [List.foldl_cons] at ht
      refine ih _ ?_ (fun x hx => hrows x (List.mem_cons_of_mem r hx)) t ht
      intro a ha
      have hr : w < r.timestamp := hrows r (List.mem_cons_self r rest)
      cases hc : acc with
      | none =>
          rw [hc] at ha
          simp only [Option.some.injEq] at ha
          omega
      | some b =>
          rw [hc] at ha
          simp only at ha
          by_cases hlt : b < r.timestamp
          · rw [if_pos hlt] at ha
            simp only [Option.some.injEq] at ha
            omega
          · rw [if_neg hlt] at ha
            simp only [Option.some.injEq] at ha
            have := hacc b hc
            omega

/-- C4 amended.  Once past the first-poll branch (`is_first_poll = false`
with a watermark set), a poll never lowers the watermark — whether it returns
rows, no rows or a database error — provided the current time is not behind
the watermark and each returned row is stamped strictly after the watermark,
as the non-first `SELECT`'s `timestamp > $2` predicate guarantees.  The
counterexample shows the claim fails without this proviso: a database error
on the first poll lets the next successful poll move the watermark back. -/
theorem C4_watermark_amended (s : PollState) (now : Int)
    (res : Except Unit (List PacketInfo)) (w : Int)
    (hw : s.last_timestamp = some w)
    (_hfirst : s.is_first_poll = false)
    (hnow : w ≤ now)
    (hrows : ∀ rows, res = .ok rows → ∀ r ∈ rows, w < r.timestamp) :
    ∀ w', (poll_packets s now res).1.last_timestamp = some w' → w ≤ w' := by
  intro w' hw'
  unfold poll_packets at hw'
  have hs1 : ¬ (s.is_first_poll = false ∧ s.last_timestamp = none) := by
    rintro ⟨-, hnone⟩
    rw [hw] at hnone
    cases hnone
  simp only [hs1, if_false] at hw'
  cases res with
  | error e =>
      simp only at hw'
      cases hw'
      exact hnow
  | ok rows =>
      simp only at hw'
      cases hw'
      cases hlat : latest_of rows with
      | none => simpa [hlat] using hnow
      | some t =>
          have := latest_of_go_gt w rows none (by intro a ha; cases ha)
            (hrows rows rfl) t hlat
          simp only [hlat, Option.getD_some]
          omega

/-- C4 amended, witness: from watermark 50 at time 60, a poll returning one
row stamped 55 keeps the watermark at or above 50. -/
theorem C4_watermark_amended_witness : (50 : Int) ≤ 55 :=
  C4_watermark_amended ⟨some 50, false, .v4 10 0 0 1⟩ 60
    (.ok [{ rowTs80 with timestamp := 55 }]) 50 rfl rfl (by decide)
    (by
      intro rows h r hr
      cases h
      simp only [List.mem_singleton] at hr
      subst hr
      decide)
    55 rfl

/-! ## Claim C9: polled packets are addressed to the local host -/

/-- The claim's address condition: the destination is the local IP, an IPv4
broadcast or multicast address, or an IPv6 multicast address. -/
def AddressedToHost (myIp ip : IpAddr) : Prop :=
  ip = myIp ∨
    (match ip with
     | .v4 a b c d => (a = 255 ∧ b = 255 ∧ c = 255 ∧ d = 255) ∨ (224 ≤ a ∧ a ≤ 239)
     | .v6 s0 _ _ _ _ _ _ _ => s0 &&& 0xFF00 = 0xFF00)

/-- The source's boolean broadcast test agrees with the claim's address
condition (its third disjunct repeats the broadcast case). -/
lemma is_broadcast_ip_iff (ip : IpAddr) :
    is_broadcast_ip ip = true ↔
      (match ip with
       | .v4 a b c d => (a = 255 ∧ b = 255 ∧ c = 255 ∧ d = 255) ∨ (224 ≤ a ∧ a ≤ 239)
       | .v6 s0 _ _ _ _ _ _ _ => s0 &&& 0xFF00 = 0xFF00) := by
  cases ip with
  | v4 a b c d =>
      simp only [is_broadcast_ip, decide_eq_true_eq]
      constructor
      · rintro (h | h | h)
        · exact Or.inl h
        · exact Or.inr h
        · simp only [List.cons.injEq, and_true] at h
          exact Or.inl ⟨h.1, h.2.1, h.2.2.1, h.2.2.2⟩
      · rintro (h | h)
        · exact Or.inl h
        · exact Or.inr (Or.inl h)
  | v6 s0 s1 s2 s3 s4 s5 s6 s7 =>
      simp [is_broadcast_ip]

/-- C9.  Whatever rows the database returns, every `PacketInfo` emitted by a
successful `poll_packets` satisfies the claim's address condition: it passed
`should_process_packet`, i.e. its destination equals `my_ip` or is an IPv4
broadcast/multicast or IPv6 multicast address. -/
theorem C9_polled_rows_addressed_to_host (s : PollState) (now : Int)
    (rows out : List PacketInfo)
    (hout : (poll_packets s now (.ok rows)).2 = .ok out) :
    ∀ p ∈ out, AddressedToHost s.my_ip p.dst_ip := by
  intro p hp
  have hmyip : (if s.is_first_poll = false ∧ s.last_timestamp = none
      then { s with last_timestamp := some (now - 5) } else s).my_ip = s.my_ip := by
    by_cases h : s.is_first_poll = false ∧ s.last_timestamp = none <;> simp [h]
  unfold poll_packets at hout
  simp only at hout
  cases hout
  rw [hmyip] at hp
  have hpass := (List.mem_filter.mp hp).2
  simp only [should_process_packet, Bool.or_eq_true, beq_iff_eq] at hpass
  cases hpass with
  | inl h => exact Or.inl h
  | inr h => exact Or.inr ((is_broadcast_ip_iff p.dst_ip).mp h)

/-- C9 witness: a broadcast row returned by a concrete poll satisfies the
address condition. -/
theorem C9_polled_rows_addressed_to_host_witness :
    AddressedToHost (IpAddr.v4 10 0 0 1) (IpAddr.v4 255 255 255 255) :=
  C9_polled_rows_addressed_to_host ⟨none, true, .v4 10 0 0 1⟩ 0
    [{ rowTs80 with dst_ip := .v4 255 255 255 255 }]
    [{ rowTs80 with dst_ip := .v4 255 255 255 255 }] (by rfl)
    { rowTs80 with dst_ip := .v4 255 255 255 255 } (by simp)

/-! ## The IPv4 reassembler, `src/host_ids/ip_reassembly.rs`

`try_reassemble` there is byte-for-byte the walk of
`src/host_idps/ip_reassembly.rs` (lines 67-96 there), so one embedding
covers both.  The claim concerns the fragments stored under one
`ReassemblyKey`, so the state is that key's fragment list.  The
`arrival_time`/`last_activity` instants only feed the cleanup paths, which
the claim does not touch, and are omitted. -/

/-- `IpFragment` of the reassembly sources. -/
structure IpFragment where
  data : List Nat
  offset : Nat
  more_fragments : Bool
deriving DecidableEq, Repr

/-- Insertion step for `sort_by_key(|f| f.offset)`.  `sortByOffset` inserts
the earlier-arriving fragment into the already-sorted later fragments, so
inserting before the first fragment of equal or larger offset keeps equal
offsets in arrival order — the stability Rust's `sort_by_key` guarantees. -/
def insertByOffset (f : IpFragment) : List IpFragment → List IpFragment
  | [] => [f]
  | g :: rest => if f.offset ≤ g.offset then f :: g :: rest else g :: insertByOffset f rest

/-- Stable sort of the fragment buffer by offset (equal offsets keep
arrival order, as with Rust's stable `sort_by_key`). -/
def sortByOffset : List IpFragment → List IpFragment
  | [] => []
  | f :: rest => insertByOffset f (sortByOffset rest)

/-- The `for fragment in &buffer.fragments` walk of `try_reassemble`: stop
with `complete = false` on an offset gap, append data otherwise, advance
`expected_offset` (a `u16`, hence the modulus) and stop the walk — with
`complete` still true — at the first fragment without `more_fragments`.
Falling off the end of the list also leaves `complete = true`. -/
def reassembleWalk : List IpFragment → Nat → List Nat → Option (List Nat)
  | [], _, acc => some acc
  | f :: rest, expected, acc =>
      if f.offset ≠ expected then none
      else
        let acc2 := acc ++ f.data
        if f.more_fragments = false then some acc2
        else reassembleWalk rest ((f.offset + f.data.length) % 65536) acc2

/-- `IpReassembler::try_reassemble` on the fragment list of one key. -/
def try_reassemble (frags : List IpFragment) : Option (List Nat) :=
  reassembleWalk (sortByOffset frags) 0 []

/-- The fragment built at the top of `process_packet` from the IP header's
`flags_fragment_offset` field and the payload. -/
def mkFragment (flags_fragment_offset : Nat) (payload : List Nat) : IpFragment :=
  { data := payload
    offset := (flags_fragment_offset &&& 0x1FFF) * 8
    more_fragments := decide (flags_fragment_offset &&& 0x2000 ≠ 0) }

/-- `IpReassembler::process_packet` restricted to one `ReassemblyKey`:
append the new fragment to that key's buffer, try to reassemble, and on
success drop the buffer entry. -/
def process_packet_key (buf : List IpFragment) (flags_fragment_offset : Nat)
    (payload : List Nat) : List IpFragment × Option (List Nat) :=
  let buf2 := buf ++ [mkFragment flags_fragment_offset payload]
  match try_reassemble buf2 with
  | some p => ([], some p)
  | none => (buf2, none)

/-! ## Claim C5: when reassembly emits -/

/-- C5 counterexample.  A single fragment at offset 0 whose
`more_fragments` bit is set (flags word 0x2000): no final fragment has
arrived, yet `process_packet` already returns the payload, because the walk
that falls off the end of the fragment list leaves `complete = true`. -/
theorem C5_counterexample :
    process_packet_key [] 0x2000 [1, 2, 3] = ([], some [1, 2, 3]) ∧
    (mkFragment 0x2000 [1, 2, 3]).more_fragments = true := by
  constructor <;> rfl

/-- The declarative emission condition: starting from an expected offset,
the fragment list is covered contiguously either down to a first fragment
with `more_fragments = false` (whose data ends the payload, later fragments
ignored) or to the end of the list. -/
inductive Covers : Nat → List IpFragment → List Nat → Prop where
  | nil (expected : Nat) : Covers expected [] []
  | finalFrag (expected : Nat) (f : IpFragment) (rest : List IpFragment) :
      f.offset = expected → f.more_fragments = false →
      Covers expected (f :: rest) f.data
  | step (expected : Nat) (f : IpFragment) (rest : List IpFragment) (p : List Nat) :
      f.offset = expected → f.more_fragments = true →
      Covers ((f.offset + f.data.length) % 65536) rest p →
      Covers expected (f :: rest) (f.data ++ p)

/-- The walk returns exactly the payloads described by `Covers`, up to the
accumulator prefix. -/
lemma reassembleWalk_iff (l : List IpFragment) (expected : Nat) (acc p : List Nat) :
    reassembleWalk l expected acc = some p ↔
      ∃ q, Covers expected l q ∧ p = acc ++ q := by
  induction l generalizing expected acc p with
  | nil =>
      simp only [reassembleWalk, Option.some.injEq]
      constructor
      · rintro rfl
        exact ⟨[], Covers.nil expected, by simp⟩
      · rintro ⟨q, hq, rfl⟩
        cases hq
        simp
  | cons f rest ih =>
      simp only [reassembleWalk]
      by_cases hoff : f.offset = expected
      · simp only [hoff, ne_eq, not_true_eq_false, if_false]
        by_cases hmore : f.more_fragments = false
        · simp only [hmore, if_true, Option.some.injEq]
          constructor
          · rintro rfl
            exact ⟨f.data, Covers.finalFrag expected f rest hoff hmore, rfl⟩
          · rintro ⟨q, hq, rfl⟩
            cases hq with
            | finalFrag _ _ _ h1 h2 => rfl
            | step _ _ _ p h1 h2 hcov => rw [hmore] at h2; cases h2
        · have hmore' : f.more_fragments = true := by
            cases hb : f.more_fragments
            · exact absurd hb hmore
            · rfl
          simp only [hmore', Bool.true_eq_false, if_false]
          rw [ih]
          constructor
          · rintro ⟨q, hq, rfl⟩
            exact ⟨f.data ++ q,
              Covers.step expected f rest q hoff hmore' (by rwa [hoff]), by simp⟩
          · rintro ⟨q, hq, rfl⟩
            cases hq with
            | finalFrag _ _ _ h1 h2 => rw [hmore'] at h2; cases h2
            | step _ _ _ p h1 h2 hcov =>
                exact ⟨p, by rwa [hoff] at hcov, by simp⟩
      · simp only [hoff, ne_eq, not_false_eq_true, if_true]
        constructor
        · rintro h
          cases h
        · rintro ⟨q, hq, rfl⟩
          cases hq with
          | finalFrag _ _ _ h1 h2 => exact absurd h1 hoff
          | step _ _ _ p h1 h2 hcov => exact absurd h1 hoff

/-- C5 amended.  `process_packet` returns `Some(payload)` exactly when the
stored fragments for the key, after the new fragment is appended and the
buffer is sorted by offset, cover offsets contiguously from 0 either up to a
first fragment with `more_fragments = false` or through the whole stored
list; a gap yields `None`, but — against the claim — a contiguous buffer
with no final fragment at all also emits. -/
theorem C5_reassembly_emission_amended (buf : List IpFragment)
    (flags_fragment_offset : Nat) (payload p : List Nat) :
    (process_packet_key buf flags_fragment_offset payload).2 = some p ↔
      Covers 0 (sortByOffset (buf ++ [mkFragment flags_fragment_offset payload])) p := by
  unfold process_packet_key try_reassemble
  set l := sortByOffset (buf ++ [mkFragment flags_fragment_offset payload]) with hl
  cases hr : reassembleWalk l 0 [] with
  | none =>
      simp only [hr]
      constructor
      · intro h'
        exact absurd h' (by simp)
      · intro hcov
        have := (reassembleWalk_iff l 0 [] p).mpr ⟨p, hcov, by simp⟩
        rw [hr] at this
        cases this
  | some q =>
      simp only [hr]
      have hq : Covers 0 l q := by
        obtain ⟨q', hq', he⟩ := (reassembleWalk_iff l 0 [] q).mp hr
        simp only [List.nil_append] at he
        rwa [he]
      constructor
      · intro h'
        simp only [Option.some.injEq] at h'
        rwa [← h']
      · intro hcov
        have := (reassembleWalk_iff l 0 [] p).mpr ⟨p, hcov, by simp⟩
        rw [hr] at this
        injection this with h2
        rw [h2]

/-! ## The TCP stream tracker, `src/host_ids/tcp_stream.rs`

Times are `Nat` seconds; the two `now` calls at the top of `update` and the
one inside the `TimeWait` guard all happen within one call and are modelled
as the same instant `now`.  Sequence numbers are `Nat` with `% 2^32` at the
wrapping additions.  Flag constants: FIN = 1, SYN = 2, ACK = 16. -/

/-- `TcpState` of `src/host_ids/tcp_stream.rs`. -/
inductive TcpState where
  | listen
  | synSent
  | synReceived
  | established
  | finWait1
  | finWait2
  | closeWait
  | closing
  | lastAck
  | timeWait
  | closed
deriving DecidableEq, Repr

/-- `TcpStream` of `src/host_ids/tcp_stream.rs`. -/
structure TcpStream where
  state : TcpState
  client_init_seq : Nat
  server_init_seq : Nat
  client_next_seq : Nat
  server_next_seq : Nat
  client_data : List Nat
  server_data : List Nat
  last_activity : Nat
  client_window : Nat
  server_window : Nat
  client_mss : Nat
  server_mss : Nat
  client_cwnd : Nat
  server_cwnd : Nat
  arrival_time : Nat
deriving DecidableEq, Repr

/-- `TcpStream::new`. -/
def TcpStream.new (client_init_seq server_init_seq now : Nat) : TcpStream :=
  { state := .synSent
    client_init_seq := client_init_seq
    server_init_seq := server_init_seq
    client_next_seq := (client_init_seq + 1) % 4294967296
    server_next_seq := server_init_seq
    client_data := []
    server_data := []
    last_activity := now
    client_window := 0
    server_window := 0
    client_mss := 1460
    server_mss := 1460
    client_cwnd := 1
    server_cwnd := 1
    arrival_time := now }

/-- `TcpStream::set_mss`. -/
def TcpStream.set_mss (s : TcpStream) (is_client : Bool) (mss : Nat) : TcpStream :=
  if is_client then { s with client_mss := mss } else { s with server_mss := mss }

/-- The state-transition `match` at the end of `TcpStream::update`.  The
arms with a literal flag pattern (`TCP_SYN`, `TCP_ACK`, `TCP_FIN`) match
that exact flags byte; the guarded arms test flag bits.  `last_activity`
here is the field value at match time — which `update` has just set to
`now`, so the `TimeWait` arm compares `now` with `now`. -/
def updateState (state : TcpState) (flags now last_activity : Nat) : TcpState :=
  if state = .listen ∧ flags = 2 then .synReceived
  else if state = .synSent ∧ flags &&& 18 = 18 then .established
  else if state = .synReceived ∧ flags = 16 then .established
  else if state = .established ∧ flags = 1 then .finWait1
  else if state = .finWait1 then
    (if flags &&& 16 ≠ 0 ∧ flags &&& 1 = 0 then .finWait2
     else if flags &&& 17 = 17 then .timeWait
     else .finWait1)
  else if state = .finWait2 ∧ flags = 16 then .timeWait
  else if state = .closeWait ∧ flags = 1 then .lastAck
  else if state = .lastAck ∧ flags = 16 then .closed
  else if state = .timeWait ∧ now - last_activity > 120 then .closed
  else state

/-- `TcpStream::update`: refresh the activity instants, ingest the segment
for the sending direction (in-order data append, ACK-driven advance of the
peer's next sequence number, window and simplified congestion counter),
then run the state transition. -/
def TcpStream.update (s : TcpStream) (now : Nat) (is_from_client : Bool)
    (seq ack flags : Nat) (data : List Nat) (window : Nat) : TcpStream :=
  let s := { s with last_activity := now, arrival_time := now }
  let s :=
    if is_from_client then
      let s :=
        if seq = s.client_next_seq then
          { s with client_data := s.client_data ++ data,
                   client_next_seq := (s.client_next_seq + data.length) % 4294967296 }
        else s
      let s := if flags &&& 16 ≠ 0 then { s with server_next_seq := ack } else s
      { s with client_window := window, client_cwnd := s.client_cwnd + 1 }
    else
      let s :=
        if seq = s.server_next_seq then
          { s with server_data := s.server_data ++ data,
                   server_next_seq := (s.server_next_seq + data.length) % 4294967296 }
        else s
      let s := if flags &&& 16 ≠ 0 then { s with client_next_seq := ack } else s
      { s with server_window := window, server_cwnd := s.server_cwnd + 1 }
  { s with state := updateState s.state flags now s.last_activity }

/-! ## Claim C7: TimeWait collapse after 120 seconds -/

/-- C7.  A flow in `TimeWait` stays in `TimeWait` under `update` for every
segment and every elapsed time: the guard of the `TimeWait` arm compares the
current time against `last_activity`, but `update` has already overwritten
`last_activity` with the current time, so the 120-second condition reads
`now - now > 120` and never holds.  The claim (and the source's own comment
on that arm) expects `Closed` whenever more than 120 seconds have passed
since the activity before the segment. -/
theorem C7_timewait_never_closes (s : TcpStream) (now : Nat) (is_from_client : Bool)
    (seq ack flags : Nat) (data : List Nat) (window : Nat)
    (h : s.state = .timeWait) :
    (s.update now is_from_client seq ack flags data window).state = .timeWait := by
  unfold TcpStream.update
  cases is_from_client <;>
    simp [updateState, h, Nat.sub_self, apply_ite TcpStream.state,
      apply_ite TcpStream.last_activity]

/-- C7 witness: a flow last active at time 0, observed at time 1000 —
far beyond 120 seconds — with a plain ACK, remains in `TimeWait`. -/
theorem C7_timewait_never_closes_witness :
    (TcpStream.update { TcpStream.new 100 500 0 with state := .timeWait }
        1000 true 101 501 16 [] 0).state = .timeWait :=
  C7_timewait_never_closes { TcpStream.new 100 500 0 with state := .timeWait }
    1000 true 101 501 16 [] 0 rfl

/-! ## The flow table, `src/host_ids/packet_processor.rs`

The `HashMap<TcpStreamKey, TcpStream>` is an association list; the processor
only inserts keys that are absent, mutates through `get_mut`, and removes
closed flows, so append / in-place map / filter model the map operations
exactly.  `parse_tcp_options` is embedded from `src/inspector/tcp_header.rs`,
the repository's copy of the missing `host_ids/tcp_header.rs` module. -/

/-- IPv4 address as four octets. -/
abbrev Ipv4 := Nat × Nat × Nat × Nat

/-- `TcpStreamKey = (Ipv4Addr, u16, Ipv4Addr, u16)`. -/
abbrev TcpStreamKey := Ipv4 × Nat × Ipv4 × Nat

/-- `TcpHeader` of `src/inspector/tcp_header.rs`. -/
structure TcpHeader where
  src_port : Nat
  dst_port : Nat
  seq_num : Nat
  ack_num : Nat
  data_offset : Nat
  flags : Nat
  window : Nat
  checksum : Nat
  urgent_ptr : Nat
deriving DecidableEq, Repr

/-- Body of `parse_tcp_options`: fuel-bounded rendering of the `while` loop.
The source loop fails to advance when a skip length byte is 0 and then never
terminates; exhausted fuel (`none`) marks exactly those runs.  When the loop
terminates, `data.length + 1` steps always suffice because `i` grows by at
least one per iteration. -/
def parseTcpOptionsGo : Nat → List Nat → Nat → Option Nat
  | 0, _, _ => none
  | fuel + 1, data, i =>
      if i < data.length then
        let b := data.getD i 0
        if b = 0 then none
        else if b = 1 then parseTcpOptionsGo fuel data (i + 1)
        else if b = 2 ∧ i + 4 ≤ data.length then
          some (256 * data.getD (i + 2) 0 + data.getD (i + 3) 0)
        else if i + 1 < data.length then
          parseTcpOptionsGo fuel data (i + data.getD (i + 1) 0)
        else none
      else none

/-- `parse_tcp_options`: scan the options bytes for an MSS option. -/
def parse_tcp_options (data : List Nat) : Option Nat :=
  parseTcpOptionsGo (data.length + 1) data 0

/-- `HashMap::contains_key` on the association list. -/
def containsKey (streams : List (TcpStreamKey × TcpStream)) (k : TcpStreamKey) : Bool :=
  streams.any (fun kv => kv.1 == k)

/-- `HashMap::get_mut` (read part). -/
def lookupKey (streams : List (TcpStreamKey × TcpStream)) (k : TcpStreamKey) :
    Option TcpStream :=
  (streams.find? (fun kv => kv.1 == k)).map (fun kv => kv.2)

/-- `HashMap::insert` of a key known to be absent. -/
def insertNew (streams : List (TcpStreamKey × TcpStream)) (k : TcpStreamKey)
    (v : TcpStream) : List (TcpStreamKey × TcpStream) :=
  streams ++ [(k, v)]

/-- The write-back of a `get_mut` mutation. -/
def updateAt (streams : List (TcpStreamKey × TcpStream)) (k : TcpStreamKey)
    (v : TcpStream) : List (TcpStreamKey × TcpStream) :=
  streams.map (fun kv => if kv.1 == k then (k, v) else kv)

/-- `HashMap::remove`. -/
def removeKey (streams : List (TcpStreamKey × TcpStream)) (k : TcpStreamKey) :
    List (TcpStreamKey × TcpStream) :=
  streams.filter (fun kv => !(kv.1 == k))

/-- `process_tcp_data` of `src/host_ids/packet_processor.rs`: direction
detection by key presence, flow creation on SYN (client MSS from the
options), server MSS on a SYN from the server side, the per-segment
`update`, `arrival_time` refresh, and removal of the flow once `Closed`. -/
def process_tcp_data (ip_src ip_dst : Ipv4) (tcp : TcpHeader) (payload : List Nat)
    (streams : List (TcpStreamKey × TcpStream)) (now : Nat) :
    List (TcpStreamKey × TcpStream) :=
  let stream_key : TcpStreamKey := (ip_src, tcp.src_port, ip_dst, tcp.dst_port)
  let reverse_key : TcpStreamKey := (ip_dst, tcp.dst_port, ip_src, tcp.src_port)
  let step1 :=
    if containsKey streams stream_key then (true, streams)
    else if containsKey streams reverse_key then (false, streams)
    else if tcp.flags &&& 2 ≠ 0 then
      let new_stream := TcpStream.new tcp.seq_num 0 now
      let options_end := tcp.data_offset * 4 - 20
      let new_stream :=
        if options_end ≤ payload.length then
          match parse_tcp_options (payload.take options_end) with
          | some mss => new_stream.set_mss true mss
          | none => new_stream
        else new_stream
      (true, insertNew streams stream_key new_stream)
    else (true, streams)
  let is_from_client := step1.1
  let streams1 := step1.2
  let key := if is_from_client then stream_key else reverse_key
  match lookupKey streams1 key with
  | none => streams1
  | some stream =>
      let stream :=
        if tcp.flags &&& 2 ≠ 0 ∧ is_from_client = false then
          let options_end := tcp.data_offset * 4 - 20
          if options_end ≤ payload.length then
            match parse_tcp_options (payload.take options_end) with
            | some mss => stream.set_mss false mss
            | none => stream
          else stream
        else stream
      let stream := stream.update now is_from_client tcp.seq_num tcp.ack_num
        tcp.flags payload tcp.window
      let stream := { stream with arrival_time := now }
      if stream.state = .closed then removeKey streams1 key
      else updateAt streams1 key stream

/-! ## Claim C8: the three-way handshake -/

/-- Host A of the handshake scenario. -/
def hsA : Ipv4 := (10, 0, 0, 1)

/-- Host B of the handshake scenario. -/
def hsB : Ipv4 := (10, 0, 0, 2)

/-- Flow table after SYN(seq=100) from A:1000 to B:80. -/
def hsStep1 : List (TcpStreamKey × TcpStream) :=
  process_tcp_data hsA hsB ⟨1000, 80, 100, 0, 5, 2, 0, 0, 0⟩ [] [] 0

/-- Flow table after SYN+ACK(seq=500, ack=101) from B:80 to A:1000. -/
def hsStep2 : List (TcpStreamKey × TcpStream) :=
  process_tcp_data hsB hsA ⟨80, 1000, 500, 101, 5, 18, 0, 0, 0⟩ [] hsStep1 1

/-- Flow table after the final ACK(seq=101, ack=501) from A:1000 to B:80. -/
def hsStep3 : List (TcpStreamKey × TcpStream) :=
  process_tcp_data hsA hsB ⟨1000, 80, 101, 501, 5, 16, 0, 0, 0⟩ [] hsStep2 2

/-- C8.  From an empty flow table, SYN(seq=100) from A to B, then
SYN+ACK(seq=500, ack=101) from B to A, then ACK(seq=101, ack=501) from A to
B leave exactly one flow, keyed by the client direction, in state
`Established` with `client_next_seq = 101` and `server_next_seq = 501`. -/
theorem C8_handshake_established :
    hsStep3.map (fun kv =>
        (kv.1, kv.2.state, kv.2.client_next_seq, kv.2.server_next_seq)) =
      [((hsA, 1000, hsB, 80), .established, 101, 501)] := by
  rfl

end RdbTunnel
